import Mathlib

/-!
Shallow embedding of the chat backend (`src/server.js` and the no-auth
variant in `src/unnamed/part_000`).

The repository contains three revisions of the same REST service:
a SQLite-backed server with JWT auth (`src/server.js`, first document),
a JSON-file-backed server with JWT auth (`src/server.js`, second document),
and a SQLite-backed server without auth (`src/unnamed/part_000`, second
document).  The two SQLite revisions share the same table schema and the
same handler bodies for register/login/createChat/messages (the no-auth one
takes `createdBy`/`senderId` from the request body instead of the token),
so one SQLite embedding covers both; the JSON-file revision is embedded
separately because its dedup check and its stored chat shape differ.

Modelling conventions:
* a SQLite table is a list of rows in insertion (rowid) order; `SELECT`
  without `ORDER BY` is modelled as scanning that list in order, and
  `db.get` as `List.find?`;
* `INSERT` is an append; a PRIMARY KEY / UNIQUE violation makes the insert
  fail (the JS `await db.run` throws, the surrounding `try` converts it to
  a 500 response).  The declared FOREIGN KEYs are *not* modelled as checks:
  neither revision issues `PRAGMA foreign_keys = ON`, and SQLite leaves
  foreign-key enforcement off by default, so the running code never
  enforces them;
* `uuidv4()` and `new Date().toISOString()` are environment inputs: each
  handler takes the generated id and timestamp as explicit arguments;
  freshness of a generated id is a hypothesis where a theorem needs it;
* JS falsiness of the string fields read from a request body coincides
  with emptiness, so `!chatId` is modelled as `chatId == ""`; a body field
  that is absent or not an array is modelled as `none`.
-/

instance {ε α : Type} [DecidableEq ε] [DecidableEq α] :
    DecidableEq (Except ε α) := fun x y =>
  match x, y with
  | .error a, .error b =>
      if h : a = b then isTrue (by rw [h])
      else isFalse fun hc => h (by simpa using hc)
  | .error _, .ok _ => isFalse fun hc => Except.noConfusion hc
  | .ok _, .error _ => isFalse fun hc => Except.noConfusion hc
  | .ok a, .ok b =>
      if h : a = b then isTrue (by rw [h])
      else isFalse fun hc => h (by simpa using hc)

namespace ChatApi

/-- A row of the `users` table (`id` PRIMARY KEY, `username` UNIQUE,
plain-text `password`, `createdAt`). -/
structure User where
  id : String
  username : String
  password : String
  createdAt : String
deriving DecidableEq, Repr

/-- What `register` returns: the new user record with the `password`
field stripped (`const { password: _, ...userWithoutPassword }`). -/
structure PublicUser where
  id : String
  username : String
  createdAt : String
deriving DecidableEq, Repr

/-- The payload `jwt.sign` embeds in the login token
(`{ userId: user.id, username: user.username }`); the no-auth revision
returns the same two fields as a bare body. -/
structure TokenPayload where
  userId : String
  username : String
deriving DecidableEq, Repr

/-- A row of the `chats` table. -/
structure Chat where
  id : String
  name : Option String
  type : String
  createdBy : String
  createdAt : String
deriving DecidableEq, Repr

/-- A row of the `chat_participants` join table,
PRIMARY KEY `(chatId, userId)`. -/
structure PRow where
  chatId : String
  userId : String
deriving DecidableEq, Repr

/-- A row of the `messages` table. -/
structure Message where
  id : String
  chatId : String
  senderId : String
  content : String
  type : String
  status : String
  createdAt : String
deriving DecidableEq, Repr

/-- The SQLite database: one list per table, in insertion order. -/
structure SqlStore where
  users : List User
  chats : List Chat
  participants : List PRow
  messages : List Message
deriving DecidableEq, Repr

/-- An HTTP response: status code plus either a JSON body or the `error`
field of an error body. -/
structure Response (α : Type) where
  status : Nat
  body : Except String α
deriving DecidableEq, Repr

/-! ## SQLite revisions (`src/server.js` first document, `part_000`) -/

/-- Whether the `chat_participants` table holds the row `(cid, uid)`. -/
def hasRow (s : SqlStore) (cid uid : String) : Bool :=
  s.participants.any fun r => r.chatId == cid && r.userId == uid

/-- The dedup query of `POST /api/chats`:

```sql
SELECT c.* FROM chats c
JOIN chat_participants cp1 ON c.id = cp1.chatId
JOIN chat_participants cp2 ON c.id = cp2.chatId
WHERE c.type = "individual" AND cp1.userId = ? AND cp2.userId = ?
```

`db.get` returns the first matching chat in scan order.  Note that the
query only requires the chat to *contain* both user ids: it does not
require the chat to have exactly two participants, and `cp1`/`cp2` may
bind the same row when the two supplied ids are equal. -/
def findIndiv (s : SqlStore) (p0 p1 : String) : Option Chat :=
  s.chats.find? fun c =>
    c.type == "individual" && hasRow s c.id p0 && hasRow s c.id p1

/-- The guarded dedup step: the query above runs only when
`type === "individual" && participants.length === 2`. -/
def dedupLookup (s : SqlStore) (ctype : String) (parts : List String) :
    Option Chat :=
  if ctype == "individual" && parts.length == 2 then
    findIndiv s (parts.getD 0 "") (parts.getD 1 "")
  else none

/-- The participant-insertion loop of `POST /api/chats`:
`for (const userId of participants) await db.run("INSERT INTO chat_participants ...")`.
Each insert fails on a PRIMARY KEY `(chatId, userId)` violation; the thrown
error aborts the loop, leaving the rows inserted so far in place.  Returns
whether the loop completed, together with the resulting store. -/
def insertParticipants (s : SqlStore) (cid : String) :
    List String → Bool × SqlStore
  | [] => (true, s)
  | u :: rest =>
      if hasRow s cid u then (false, s)
      else
        insertParticipants
          { s with participants := s.participants ++ [⟨cid, u⟩] } cid rest

/-- `POST /api/chats` (SQLite revisions).  `creatorId` is `req.user.userId`
(token revision) or the `createdBy` of the body (no-auth revision);
`participants = none` models a missing or non-array `participants` field;
`ctype` is the `type` field of the body, defaulting to `"individual"`;
`newId`/`now` are the `uuidv4()` and timestamp the handler would draw. -/
def createChatSql (s : SqlStore) (creatorId : String) (name : Option String)
    (participants : Option (List String)) (ctype : String)
    (newId now : String) : Response Chat × SqlStore :=
  match participants with
  | none => (⟨400, .error "Participants array is required"⟩, s)
  | some parts =>
      match dedupLookup s ctype parts with
      | some c => (⟨200, .ok c⟩, s)
      | none =>
          if s.chats.any fun c => c.id == newId then
            (⟨500, .error "Internal server error"⟩, s)
          else
            let c : Chat := ⟨newId, name, ctype, creatorId, now⟩
            let s1 : SqlStore := { s with chats := s.chats ++ [c] }
            let r := insertParticipants s1 newId parts
            if r.1 then (⟨201, .ok c⟩, r.2)
            else (⟨500, .error "Internal server error"⟩, r.2)

/-- `POST /api/auth/register` (SQLite revisions).  Checks the missing-field
guard, then the explicit username lookup, then inserts (the insert can
still fail on the `id` PRIMARY KEY).  On success returns 201 with the
record minus the password. -/
def registerSql (s : SqlStore) (username password newId now : String) :
    Response PublicUser × SqlStore :=
  if username == "" || password == "" then
    (⟨400, .error "Username and password are required"⟩, s)
  else if s.users.any fun u => u.username == username then
    (⟨400, .error "Username already exists"⟩, s)
  else if s.users.any fun u => u.id == newId then
    (⟨500, .error "Internal server error"⟩, s)
  else
    (⟨201, .ok ⟨newId, username, now⟩⟩,
      { s with users := s.users ++ [⟨newId, username, password, now⟩] })

/-- `POST /api/auth/login` (SQLite revisions).
`SELECT * FROM users WHERE username = ? AND password = ?`; on a match the
token revision signs `{ userId, username }` and the no-auth revision
returns `{ id, username }` — both are the `TokenPayload` here. -/
def loginSql (s : SqlStore) (username password : String) :
    Response TokenPayload :=
  if username == "" || password == "" then
    ⟨400, .error "Username and password are required"⟩
  else
    match s.users.find? fun u =>
        u.username == username && u.password == password with
    | none => ⟨401, .error "Invalid credentials"⟩
    | some u => ⟨200, .ok ⟨u.id, u.username⟩⟩

/-- `GET /api/messages` (SQLite revisions):
`SELECT * FROM messages WHERE chatId = ?` with no `ORDER BY`, i.e. a
filter of the table in insertion order. -/
def listMessagesSql (s : SqlStore) (chatId : String) :
    Response (List Message) :=
  if chatId == "" then ⟨400, .error "Chat ID is required"⟩
  else ⟨200, .ok (s.messages.filter fun m => m.chatId == chatId)⟩

/-- `POST /api/messages` (SQLite revisions).  `senderId` is
`req.user.userId` (token revision) or the `senderId` of the body (no-auth
revision; that revision also 400s when `senderId` is empty, a check the
claims do not touch).  The insert can fail on the `id` PRIMARY KEY. -/
def postMessageSql (s : SqlStore)
    (senderId chatId content mtype newId now : String) :
    Response Message × SqlStore :=
  if chatId == "" || content == "" then
    (⟨400, .error "Chat ID and content are required"⟩, s)
  else if s.messages.any fun m => m.id == newId then
    (⟨500, .error "Internal server error"⟩, s)
  else
    let m : Message := ⟨newId, chatId, senderId, content, mtype, "sent", now⟩
    (⟨201, .ok m⟩, { s with messages := s.messages ++ [m] })

/-! ## JSON-file revision (`src/server.js` second document)

Each collection is one JSON file read and rewritten wholesale; a chat
stores its participant list inline, and a message carries a `seenBy`
array.  Success responses go through `res.json(...)`, i.e. status 200. -/

/-- A chat as stored in `chats.json`: the participant array is kept
verbatim inside the chat record. -/
structure JChat where
  id : String
  name : Option String
  type : String
  participants : List String
  createdBy : String
  createdAt : String
deriving DecidableEq, Repr

/-- A message as stored in `messages.json` (adds `seenBy: []`). -/
structure JMessage where
  id : String
  chatId : String
  senderId : String
  content : String
  type : String
  status : String
  createdAt : String
  seenBy : List String
deriving DecidableEq, Repr

/-- The dedup search of the JSON revision:

```js
chats.find(chat => chat.type === "individual" &&
  chat.participants.length === 2 &&
  chat.participants.includes(participants[0]) &&
  chat.participants.includes(participants[1]))
```
-/
def findIndivJson (chats : List JChat) (p0 p1 : String) : Option JChat :=
  chats.find? fun c =>
    c.type == "individual" && c.participants.length == 2 &&
      c.participants.contains p0 && c.participants.contains p1

/-- The guarded dedup step of the JSON revision. -/
def dedupLookupJson (chats : List JChat) (ctype : String)
    (parts : List String) : Option JChat :=
  if ctype == "individual" && parts.length == 2 then
    findIndivJson chats (parts.getD 0 "") (parts.getD 1 "")
  else none

/-- `POST /api/chats` (JSON revision): on a dedup miss the supplied
participant array is stored verbatim in the new chat and the whole chat
list is rewritten; the success response is `res.json`, status 200. -/
def createChatJson (chats : List JChat) (creatorId : String)
    (name : Option String) (participants : Option (List String))
    (ctype : String) (newId now : String) : Response JChat × List JChat :=
  match participants with
  | none => (⟨400, .error "Participants array is required"⟩, chats)
  | some parts =>
      match dedupLookupJson chats ctype parts with
      | some c => (⟨200, .ok c⟩, chats)
      | none =>
          let c : JChat := ⟨newId, name, ctype, parts, creatorId, now⟩
          (⟨200, .ok c⟩, chats ++ [c])

/-- `POST /api/auth/register` (JSON revision): same guards as the SQLite
one but no id constraint (plain array push) and a 200 success response. -/
def registerJson (users : List User) (username password newId now : String) :
    Response PublicUser × List User :=
  if username == "" || password == "" then
    (⟨400, .error "Username and password are required"⟩, users)
  else if users.any fun u => u.username == username then
    (⟨400, .error "Username already exists"⟩, users)
  else
    (⟨200, .ok ⟨newId, username, now⟩⟩,
      users ++ [⟨newId, username, password, now⟩])

/-- `POST /api/messages` (JSON revision): appends to `messages.json`,
adding `seenBy: []`; responds via `res.json`, status 200. -/
def postMessageJson (messages : List JMessage)
    (senderId chatId content mtype newId now : String) :
    Response JMessage × List JMessage :=
  if chatId == "" || content == "" then
    (⟨400, .error "Chat ID and content are required"⟩, messages)
  else
    let m : JMessage :=
      ⟨newId, chatId, senderId, content, mtype, "sent", now, []⟩
    (⟨200, .ok m⟩, messages ++ [m])

/-- `GET /api/messages` (JSON revision): filter of `messages.json` in
file order. -/
def listMessagesJson (messages : List JMessage) (chatId : String) :
    Response (List JMessage) :=
  if chatId == "" then ⟨400, .error "Chat ID is required"⟩
  else ⟨200, .ok (messages.filter fun m => m.chatId == chatId)⟩

/-! ## Sequences of message posts (for ordering claims) -/

/-- One `POST /api/messages` request together with the id and timestamp
the handler draws for it. -/
structure PostCall where
  senderId : String
  chatId : String
  content : String
  mtype : String
  id : String
  now : String
deriving DecidableEq, Repr

/-- The message a valid `PostCall` inserts. -/
def PostCall.toMsg (p : PostCall) : Message :=
  ⟨p.id, p.chatId, p.senderId, p.content, p.mtype, "sent", p.now⟩

/-- Run a sequence of `POST /api/messages` requests left to right
(SQLite revisions). -/
def applyPosts (s : SqlStore) : List PostCall → SqlStore
  | [] => s
  | p :: rest =>
      applyPosts (postMessageSql s p.senderId p.chatId p.content p.mtype
        p.id p.now).2 rest

/-! ## Helper lemmas -/

/-- `List.find?` only depends on the values of the predicate on the list. -/
theorem find?_ext {α : Type} (l : List α) (p q : α → Bool)
    (h : ∀ x ∈ l, p x = q x) : l.find? p = l.find? q := by
  induction l with
  | nil => rfl
  | cons x xs ih =>
      rw [List.find?_cons, List.find?_cons, h x (List.mem_cons_self x xs)]
      cases q x with
      | true => rfl
      | false => exact ih fun y hy => h y (List.mem_cons_of_mem x hy)

/-- Appending one participant row extends `hasRow` by a match on that row. -/
theorem hasRow_append_single (s : SqlStore) (c u cid x : String) :
    hasRow { s with participants := s.participants ++ [⟨c, u⟩] } cid x =
      (hasRow s cid x || (c == cid && u == x)) := by
  simp [hasRow, List.any_append]

/-- The participant-insertion loop touches only the `participants` table. -/
theorem insertParticipants_fields (s : SqlStore) (cid : String)
    (l : List String) :
    (insertParticipants s cid l).2.users = s.users ∧
    (insertParticipants s cid l).2.chats = s.chats ∧
    (insertParticipants s cid l).2.messages = s.messages := by
  induction l generalizing s with
  | nil => exact ⟨rfl, rfl, rfl⟩
  | cons u rest ih =>
      cases h : hasRow s cid u with
      | true => simp [insertParticipants, h]
      | false =>
          simpa [insertParticipants, h] using
            ih { s with participants := s.participants ++ [⟨cid, u⟩] }

/-- Every row the insertion loop adds carries the fresh chat id. -/
theorem insertParticipants_rows (s : SqlStore) (cid : String)
    (l : List String) :
    ∃ l', (insertParticipants s cid l).2.participants =
        s.participants ++ l' ∧ ∀ r ∈ l', r.chatId = cid := by
  induction l generalizing s with
  | nil => exact ⟨[], by simp [insertParticipants], by simp⟩
  | cons u rest ih =>
      cases h : hasRow s cid u with
      | true => exact ⟨[], by simp [insertParticipants, h], by simp⟩
      | false =>
          obtain ⟨l', h1, h2⟩ :=
            ih { s with participants := s.participants ++ [⟨cid, u⟩] }
          refine ⟨⟨cid, u⟩ :: l', ?_, ?_⟩
          · rw [show insertParticipants s cid (u :: rest) =
                insertParticipants
                  { s with participants := s.participants ++ [⟨cid, u⟩] }
                  cid rest by simp [insertParticipants, h]]
            rw [h1]
            simp
          · intro r hr
            rcases List.mem_cons.mp hr with h | h
            · rw [h]
            · exact h2 r h

/-- The insertion loop completes exactly when the request list has no
duplicate and none of its ids is already a member of the chat. -/
theorem insertParticipants_ok_iff (s : SqlStore) (cid : String)
    (l : List String) :
    (insertParticipants s cid l).1 = true ↔
      (l.Nodup ∧ ∀ x ∈ l, hasRow s cid x = false) := by
  induction l generalizing s with
  | nil => simp [insertParticipants]
  | cons u rest ih =>
      cases h : hasRow s cid u with
      | true =>
          simp only [insertParticipants, h, if_pos]
          constructor
          · intro hfalse; cases hfalse
          · rintro ⟨-, hall⟩
            have := hall u (List.mem_cons_self u rest)
            rw [h] at this; cases this
      | false =>
          rw [show insertParticipants s cid (u :: rest) =
                insertParticipants
                  { s with participants := s.participants ++ [⟨cid, u⟩] }
                  cid rest by simp [insertParticipants, h]]
          rw [ih]
          constructor
          · rintro ⟨hnd, hall⟩
            have hmem : u ∉ rest := by
              intro hu
              have := hall u hu
              rw [hasRow_append_single] at this
              simp at this
            refine ⟨List.nodup_cons.mpr ⟨hmem, hnd⟩, ?_⟩
            intro x hx
            rcases List.mem_cons.mp hx with hx | hx
            · rw [hx]; exact h
            · have := hall x hx
              rw [hasRow_append_single] at this
              exact (Bool.or_eq_false_iff.mp this).1
          · rintro ⟨hnd, hall⟩
            obtain ⟨hmem, hnd⟩ := List.nodup_cons.mp hnd
            refine ⟨hnd, fun x hx => ?_⟩
            rw [hasRow_append_single]
            have h1 := hall x (List.mem_cons_of_mem u hx)
            have h2 : (u == x) = false := by
              rw [beq_eq_false_iff_ne]
              intro he; exact hmem (he ▸ hx)
            simp [h1, h2]

/-- The user ids stored for chat `cid`, in row order. -/
def usersFor (s : SqlStore) (cid : String) : List String :=
  (s.participants.filter fun r => r.chatId == cid).map PRow.userId

/-- `hasRow` is membership in the stored participant set of the chat. -/
theorem mem_usersFor (s : SqlStore) (cid u : String) :
    u ∈ usersFor s cid ↔ hasRow s cid u = true := by
  simp only [usersFor, hasRow, List.mem_map, List.mem_filter,
    List.any_eq_true, Bool.and_eq_true, beq_iff_eq]
  constructor
  · rintro ⟨r, ⟨hr, hcid⟩, hu⟩
    exact ⟨r, hr, hcid, hu⟩
  · rintro ⟨r, hr, hcid, hu⟩
    exact ⟨r, ⟨hr, hcid⟩, hu⟩

/-- The insertion loop never creates a duplicate membership row: if the
stored participant set of `cid` is duplicate-free before the loop, it
still is afterwards, even when the loop aborts. -/
theorem usersFor_insertParticipants (s : SqlStore) (cid : String)
    (l : List String) (h : (usersFor s cid).Nodup) :
    (usersFor (insertParticipants s cid l).2 cid).Nodup := by
  induction l generalizing s with
  | nil => exact h
  | cons u rest ih =>
      cases hr : hasRow s cid u with
      | true => simpa [insertParticipants, hr] using h
      | false =>
          rw [show insertParticipants s cid (u :: rest) =
                insertParticipants
                  { s with participants := s.participants ++ [⟨cid, u⟩] }
                  cid rest by simp [insertParticipants, hr]]
          apply ih
          have heq : usersFor
              { s with participants := s.participants ++ [⟨cid, u⟩] } cid =
              usersFor s cid ++ [u] := by
            simp [usersFor, List.filter_append]
          rw [heq, List.nodup_append]
          refine ⟨h, List.nodup_singleton u, ?_⟩
          intro x hx hx'
          rcases List.mem_singleton.mp hx' with rfl
          rw [mem_usersFor] at hx
          rw [hr] at hx; cases hx

/-- A chat with no stored rows has an empty participant set. -/
theorem usersFor_eq_nil (s : SqlStore) (cid : String)
    (h : ∀ r ∈ s.participants, r.chatId ≠ cid) : usersFor s cid = [] := by
  simp only [usersFor, List.map_eq_nil_iff]
  rw [List.filter_eq_nil_iff]
  intro r hr
  simpa [beq_iff_eq] using h r hr

/-- On a chat with fresh id no participant row exists yet. -/
theorem hasRow_of_fresh (s : SqlStore) (cid : String)
    (hr : ∀ r ∈ s.participants, r.chatId ≠ cid) (u : String) :
    hasRow s cid u = false := by
  rw [hasRow, List.any_eq_false]
  intro r hrm
  simp only [Bool.and_eq_true, beq_iff_eq, not_and]
  intro hcid _
  exact hr r hrm hcid

/-- The SQLite dedup query is symmetric in the two supplied user ids. -/
theorem findIndiv_comm (s : SqlStore) (p q : String) :
    findIndiv s p q = findIndiv s q p := by
  apply find?_ext
  intro c _
  cases c.type == "individual" <;> cases hasRow s c.id p <;>
    cases hasRow s c.id q <;> rfl

/-- The JSON dedup search is symmetric in the two supplied user ids. -/
theorem findIndivJson_comm (chats : List JChat) (p q : String) :
    findIndivJson chats p q = findIndivJson chats q p := by
  apply find?_ext
  intro c _
  cases c.type == "individual" <;> cases c.participants.length == 2 <;>
    cases c.participants.contains p <;> cases c.participants.contains q <;> rfl

/-- SQLite revisions: for distinct ids `a ≠ b`, creating an individual chat
for `[a, b]` and then for `[b, a]` yields the same chat, and the second
call does not change the store. -/
theorem createChatSql_pair (s : SqlStore)
    (cr1 cr2 a b nid1 nid2 t1 t2 : String) (hab : a ≠ b)
    (hc : ∀ c ∈ s.chats, c.id ≠ nid1)
    (hr : ∀ r ∈ s.participants, r.chatId ≠ nid1) :
    ∃ c : Chat,
      (createChatSql s cr1 none (some [a, b]) "individual" nid1 t1).1.body =
        .ok c ∧
      createChatSql
          (createChatSql s cr1 none (some [a, b]) "individual" nid1 t1).2
          cr2 none (some [b, a]) "individual" nid2 t2 =
        (⟨200, .ok c⟩,
         (createChatSql s cr1 none (some [a, b]) "individual" nid1 t1).2) := by
  have hded1 : dedupLookup s "individual" [a, b] = findIndiv s a b := by
    simp [dedupLookup]
  have hded2 : ∀ t : SqlStore,
      dedupLookup t "individual" [b, a] = findIndiv t b a := by
    intro t; simp [dedupLookup]
  cases hfound : findIndiv s a b with
  | some c =>
      have e1 : createChatSql s cr1 none (some [a, b]) "individual" nid1 t1 =
          (⟨200, .ok c⟩, s) := by
        simp [createChatSql, hded1, hfound]
      have hsym : findIndiv s b a = some c := by
        rw [findIndiv_comm]; exact hfound
      refine ⟨c, by rw [e1], ?_⟩
      rw [e1]
      simp [createChatSql, hded2, hsym]
  | none =>
      have hany : (s.chats.any fun c => c.id == nid1) = false := by
        rw [List.any_eq_false]
        intro c hcme
        simpa [beq_iff_eq] using hc c hcme
      have habb : (a == b) = false := beq_eq_false_iff_ne.mpr hab
      set c : Chat := ⟨nid1, none, "individual", cr1, t1⟩ with hcdef
      set s1 : SqlStore := { s with chats := s.chats ++ [c] } with hs1
      have hr1 : ∀ r ∈ s1.participants, r.chatId ≠ nid1 := hr
      have hrow_a : hasRow s1 nid1 a = false := hasRow_of_fresh s1 nid1 hr1 a
      have hrow_b : hasRow { s1 with participants :=
          s1.participants ++ [⟨nid1, a⟩] } nid1 b = false := by
        rw [hasRow_append_single]
        simp [hasRow_of_fresh s1 nid1 hr1 b, habb]
      have hins : insertParticipants s1 nid1 [a, b] =
          (true, { s1 with participants :=
            s1.participants ++ [⟨nid1, a⟩] ++ [⟨nid1, b⟩] }) := by
        simp [insertParticipants, hrow_a, hrow_b]
      set s3 : SqlStore := { s1 with participants :=
        s1.participants ++ [⟨nid1, a⟩] ++ [⟨nid1, b⟩] } with hs3
      have e1 : createChatSql s cr1 none (some [a, b]) "individual" nid1 t1 =
          (⟨201, .ok c⟩, s3) := by
        simp [createChatSql, hded1, hfound, hany, hins]
      have hrow3 : ∀ x : Chat, ∀ u : String, x ∈ s.chats →
          hasRow s3 x.id u = hasRow s x.id u := by
        intro x u hx
        have hne : (nid1 == x.id) = false :=
          beq_eq_false_iff_ne.mpr fun he => hc x hx he.symm
        simp [hasRow, hs3, List.any_append, hne]
      have hnone3 : s.chats.find? (fun x =>
          x.type == "individual" && hasRow s3 x.id b && hasRow s3 x.id a) =
          none := by
        rw [List.find?_eq_none]
        intro x hx
        have hfx : (x.type == "individual" && hasRow s x.id a &&
            hasRow s x.id b) = false := by
          have := List.find?_eq_none.mp hfound x hx
          simpa using this
        rw [hrow3 x a hx, hrow3 x b hx]
        cases ht : x.type == "individual" <;>
          cases h1 : hasRow s x.id a <;> cases h2 : hasRow s x.id b <;>
            rw [ht, h1, h2] at hfx <;> simp_all
      have hfind3 : findIndiv s3 b a = some c := by
        rw [findIndiv]
        have hchats : s3.chats = s.chats ++ [c] := rfl
        rw [hchats, List.find?_append, hnone3]
        have hb : hasRow s3 nid1 b = true := by
          simp [hasRow, hs3, List.any_append]
        have ha : hasRow s3 nid1 a = true := by
          simp [hasRow, hs3, List.any_append]
        simp [List.find?_cons, hcdef, hb, ha]
      refine ⟨c, by rw [e1], ?_⟩
      rw [e1]
      simp [createChatSql, hded2, hfind3]

/-- JSON revision: creating an individual chat for `[a, b]` and then for
`[b, a]` yields the same chat, and the second call does not change the
stored chat list. -/
theorem createChatJson_pair (chats : List JChat)
    (cr1 cr2 a b nid1 nid2 t1 t2 : String) :
    ∃ c : JChat,
      (createChatJson chats cr1 none (some [a, b]) "individual" nid1
        t1).1.body = .ok c ∧
      createChatJson
          (createChatJson chats cr1 none (some [a, b]) "individual" nid1
            t1).2 cr2 none (some [b, a]) "individual" nid2 t2 =
        (⟨200, .ok c⟩,
         (createChatJson chats cr1 none (some [a, b]) "individual" nid1
           t1).2) := by
  have hded1 : dedupLookupJson chats "individual" [a, b] =
      findIndivJson chats a b := by
    simp [dedupLookupJson]
  have hded2 : ∀ t : List JChat,
      dedupLookupJson t "individual" [b, a] = findIndivJson t b a := by
    intro t; simp [dedupLookupJson]
  cases hfound : findIndivJson chats a b with
  | some c =>
      have e1 : createChatJson chats cr1 none (some [a, b]) "individual"
          nid1 t1 = (⟨200, .ok c⟩, chats) := by
        simp [createChatJson, hded1, hfound]
      have hsym : findIndivJson chats b a = some c := by
        rw [findIndivJson_comm]; exact hfound
      refine ⟨c, by rw [e1], ?_⟩
      rw [e1]
      simp [createChatJson, hded2, hsym]
  | none =>
      set c : JChat := ⟨nid1, none, "individual", [a, b], cr1, t1⟩ with hcdef
      have e1 : createChatJson chats cr1 none (some [a, b]) "individual"
          nid1 t1 = (⟨200, .ok c⟩, chats ++ [c]) := by
        simp [createChatJson, hded1, hfound]
      have hnone : chats.find? (fun x =>
          x.type == "individual" && x.participants.length == 2 &&
            x.participants.contains b && x.participants.contains a) =
          none := by
        rw [List.find?_eq_none]
        intro x hx
        have hfx := List.find?_eq_none.mp hfound x hx
        cases ht : x.type == "individual" <;>
          cases hl : x.participants.length == 2 <;>
            cases h1 : x.participants.contains a <;>
              cases h2 : x.participants.contains b <;>
                rw [ht, hl, h1, h2] at hfx <;> simp_all
      have hfind : findIndivJson (chats ++ [c]) b a = some c := by
        rw [findIndivJson, List.find?_append, hnone]
        simp [List.find?_cons, hcdef]
      refine ⟨c, by rw [e1], ?_⟩
      rw [e1]
      simp [createChatJson, hded2, hfind]

/-- Running a sequence of valid posts (fresh pairwise-distinct ids)
appends exactly the corresponding messages, in call order. -/
theorem applyPosts_messages (ps : List PostCall) (s : SqlStore)
    (hvalid : ∀ p ∈ ps, p.chatId ≠ "" ∧ p.content ≠ "")
    (hids : (s.messages.map Message.id ++ ps.map PostCall.id).Nodup) :
    (applyPosts s ps).messages = s.messages ++ ps.map PostCall.toMsg := by
  induction ps generalizing s with
  | nil => simp [applyPosts]
  | cons p rest ih =>
      obtain ⟨hch, hco⟩ := hvalid p (List.mem_cons_self p rest)
      simp only [List.map_cons] at hids
      have hfresh : p.id ∉ s.messages.map Message.id := by
        rw [List.nodup_append] at hids
        exact fun hmem => hids.2.2 hmem (List.mem_cons_self p.id _)
      have hany : (s.messages.any fun m => m.id == p.id) = false := by
        rw [List.any_eq_false]
        intro m hm
        simp only [beq_iff_eq]
        intro he
        exact hfresh (List.mem_map.mpr ⟨m, hm, he⟩)
      have hcond : (p.chatId == "" || p.content == "") = false := by
        simp [hch, hco]
      have hpost : postMessageSql s p.senderId p.chatId p.content p.mtype
          p.id p.now =
          (⟨201, .ok p.toMsg⟩,
           { s with messages := s.messages ++ [p.toMsg] }) := by
        simp [postMessageSql, hcond, hany, PostCall.toMsg]
      rw [show applyPosts s (p :: rest) =
            applyPosts (postMessageSql s p.senderId p.chatId p.content
              p.mtype p.id p.now).2 rest from rfl, hpost]
      rw [ih { s with messages := s.messages ++ [p.toMsg] }
            (fun q hq => hvalid q (List.mem_cons_of_mem p hq))
            (by simp only [PostCall.toMsg, List.map_append, List.map_cons,
                  List.map_nil, List.append_assoc]
                simpa using hids)]
      simp

/-- Filtering the produced messages by chat id is producing the messages
of the filtered calls. -/
theorem filter_map_toMsg (ps : List PostCall) (cid : String) :
    (ps.map PostCall.toMsg).filter (fun m => m.chatId == cid) =
      (ps.filter fun p => p.chatId == cid).map PostCall.toMsg := by
  induction ps with
  | nil => rfl
  | cons p rest ih =>
      simp only [List.map_cons, List.filter_cons]
      rw [show (PostCall.toMsg p).chatId = p.chatId from rfl]
      cases h : p.chatId == cid <;> simp [h, ih]

/-- A createChat request that survives validation and the dedup check, but
whose participant list repeats an id, reaches the 500 branch: the chat row
is inserted and the participant loop aborts at the first repeated id. -/
theorem createChatSql_fail (s : SqlStore) (creator : String)
    (name : Option String) (l : List String) (ctype nid now : String)
    (hded : dedupLookup s ctype l = none)
    (hc : ∀ c ∈ s.chats, c.id ≠ nid) (hdup : ¬ l.Nodup) :
    createChatSql s creator name (some l) ctype nid now =
      (⟨500, .error "Internal server error"⟩,
       (insertParticipants
         { s with chats := s.chats ++ [⟨nid, name, ctype, creator, now⟩] }
         nid l).2) := by
  have hany : (s.chats.any fun c => c.id == nid) = false := by
    rw [List.any_eq_false]
    intro c hcme
    simpa [beq_iff_eq] using hc c hcme
  have hf : (insertParticipants
      { s with chats := s.chats ++ [⟨nid, name, ctype, creator, now⟩] }
      nid l).1 = false := by
    rw [Bool.eq_false_iff]
    intro h
    exact hdup ((insertParticipants_ok_iff _ _ _).mp h).1
  simp [createChatSql, hded, hany, hf]

/-! ## Claims -/

/-- C1, counterexample: the claim quantifies over every pair `(a, b)`, so
it also covers `a = b`.  In the SQLite revisions, from a store holding no
individual chat with participant `u`, the first call
`createChat(u, [u, u], "individual")` does not return a chat id at all:
the second participant insert violates the PRIMARY KEY, so the call
answers 500. -/
theorem C1_counterexample :
    (createChatSql ⟨[], [], [], []⟩ "u" none (some ["u", "u"])
      "individual" "c1" "t1").1.status = 500 ∧
    (createChatSql ⟨[], [], [], []⟩ "u" none (some ["u", "u"])
      "individual" "c1" "t1").1.body = .error "Internal server error" := by
  decide

/-- C1, amended to distinct user ids: for every `a ≠ b` and every prior
store, `createChat(a, [a, b], "individual")` followed by
`createChat(b, [b, a], "individual")` returns the same chat in both the
SQLite revisions and the JSON-file revision, and the second call writes
nothing. -/
theorem C1_individual_chat_dedup_order_independent (s : SqlStore)
    (chats : List JChat) (a b cr1 cr2 nid1 nid2 t1 t2 : String)
    (hab : a ≠ b) (hc : ∀ c ∈ s.chats, c.id ≠ nid1)
    (hr : ∀ r ∈ s.participants, r.chatId ≠ nid1) :
    (∃ c : Chat,
      (createChatSql s cr1 none (some [a, b]) "individual" nid1 t1).1.body =
        .ok c ∧
      createChatSql
          (createChatSql s cr1 none (some [a, b]) "individual" nid1 t1).2
          cr2 none (some [b, a]) "individual" nid2 t2 =
        (⟨200, .ok c⟩,
         (createChatSql s cr1 none (some [a, b]) "individual" nid1 t1).2)) ∧
    (∃ c : JChat,
      (createChatJson chats cr1 none (some [a, b]) "individual" nid1
        t1).1.body = .ok c ∧
      createChatJson
          (createChatJson chats cr1 none (some [a, b]) "individual" nid1
            t1).2 cr2 none (some [b, a]) "individual" nid2 t2 =
        (⟨200, .ok c⟩,
         (createChatJson chats cr1 none (some [a, b]) "individual" nid1
           t1).2)) :=
  ⟨createChatSql_pair s cr1 cr2 a b nid1 nid2 t1 t2 hab hc hr,
   createChatJson_pair chats cr1 cr2 a b nid1 nid2 t1 t2⟩

/-- C1, witness: the amended theorem applied to the empty store and the
pair `("a", "b")`. -/
theorem C1_witness :
    ∃ c : Chat,
      (createChatSql ⟨[], [], [], []⟩ "ua" none (some ["a", "b"])
        "individual" "c1" "t1").1.body = .ok c ∧
      createChatSql
          (createChatSql ⟨[], [], [], []⟩ "ua" none (some ["a", "b"])
            "individual" "c1" "t1").2
          "ub" none (some ["b", "a"]) "individual" "c2" "t2" =
        (⟨200, .ok c⟩,
         (createChatSql ⟨[], [], [], []⟩ "ua" none (some ["a", "b"])
           "individual" "c1" "t1").2) :=
  (C1_individual_chat_dedup_order_independent ⟨[], [], [], []⟩ [] "a" "b"
    "ua" "ub" "c1" "c2" "t1" "t2" (by decide) (by simp) (by simp)).1

/-- C2, counterexample: in the SQLite revisions the dedup search is mere
containment, not set equality.  A stored individual chat `c0` with
participant set `{a, b, x}` is matched and returned by
`createChat(_, [a, b], "individual")` although its participant set is not
`{a, b}`. -/
theorem C2_counterexample :
    (createChatSql ⟨[], [⟨"c0", none, "individual", "u9", "t0"⟩],
        [⟨"c0", "a"⟩, ⟨"c0", "b"⟩, ⟨"c0", "x"⟩], []⟩ "a" none
        (some ["a", "b"]) "individual" "c1" "t1").1.body =
      .ok ⟨"c0", none, "individual", "u9", "t0"⟩ ∧
    hasRow ⟨[], [⟨"c0", none, "individual", "u9", "t0"⟩],
        [⟨"c0", "a"⟩, ⟨"c0", "b"⟩, ⟨"c0", "x"⟩], []⟩ "c0" "x" = true ∧
    ("x" : String) ≠ "a" ∧ ("x" : String) ≠ "b" := by
  decide

/-- C2, amended: the SQLite dedup search matches a chat exactly when it is
the first chat of type individual whose participant set *contains* both
supplied ids (containment, not set equality); the JSON revision further
requires the stored participant list to have length 2, which forces set
equality when the two supplied ids are distinct.  A matching chat is
returned unchanged, with no new chat and no new participant rows. -/
theorem C2_dedup_match_is_containment (s : SqlStore) (chats : List JChat)
    (p0 p1 creator : String) (name : Option String) (nid now : String) :
    (∀ c : Chat, findIndiv s p0 p1 = some c →
        c.type = "individual" ∧ hasRow s c.id p0 = true ∧
          hasRow s c.id p1 = true) ∧
    (∀ (ctype : String) (parts : List String) (c : Chat),
        dedupLookup s ctype parts = some c →
        createChatSql s creator name (some parts) ctype nid now =
          (⟨200, .ok c⟩, s)) ∧
    (∀ c : JChat, findIndivJson chats p0 p1 = some c →
        c.type = "individual" ∧ c.participants.length = 2 ∧
          p0 ∈ c.participants ∧ p1 ∈ c.participants ∧
          (p0 ≠ p1 → ∀ x, x ∈ c.participants ↔ x = p0 ∨ x = p1)) := by
  refine ⟨?_, ?_, ?_⟩
  · intro c h
    have hp := List.find?_some h
    simp only [Bool.and_eq_true, beq_iff_eq] at hp
    exact ⟨hp.1.1, hp.1.2, hp.2⟩
  · intro ctype parts c h
    simp [createChatSql, h]
  · intro c h
    have hp := List.find?_some h
    simp only [Bool.and_eq_true, beq_iff_eq] at hp
    obtain ⟨⟨⟨htype, hlen⟩, hp0⟩, hp1⟩ := hp
    have hp0m : p0 ∈ c.participants := by simpa using hp0
    have hp1m : p1 ∈ c.participants := by simpa using hp1
    have hlen2 : c.participants.length = 2 := by exact_mod_cast hlen
    refine ⟨htype, hlen2, hp0m, hp1m, ?_⟩
    intro hne x
    obtain ⟨u, v, huv⟩ := List.length_eq_two.mp hlen2
    rw [huv] at hp0m hp1m ⊢
    simp only [List.mem_cons, List.not_mem_nil, or_false] at hp0m hp1m ⊢
    rcases hp0m with rfl | rfl <;> rcases hp1m with rfl | rfl <;>
      first
        | exact absurd rfl hne
        | (constructor <;> (rintro (rfl | rfl) <;> simp))

/-- C2, witness: a dedup hit is returned unchanged, here against the
three-participant store. -/
theorem C2_witness :
    createChatSql ⟨[], [⟨"c0", none, "individual", "u9", "t0"⟩],
        [⟨"c0", "a"⟩, ⟨"c0", "b"⟩, ⟨"c0", "x"⟩], []⟩ "a" none
        (some ["a", "b"]) "individual" "c1" "t1" =
      (⟨200, .ok ⟨"c0", none, "individual", "u9", "t0"⟩⟩,
       ⟨[], [⟨"c0", none, "individual", "u9", "t0"⟩],
        [⟨"c0", "a"⟩, ⟨"c0", "b"⟩, ⟨"c0", "x"⟩], []⟩) :=
  (C2_dedup_match_is_containment
      ⟨[], [⟨"c0", none, "individual", "u9", "t0"⟩],
       [⟨"c0", "a"⟩, ⟨"c0", "b"⟩, ⟨"c0", "x"⟩], []⟩ [] "a" "b" "a" none
      "c1" "t1").2.1 "individual" ["a", "b"]
    ⟨"c0", none, "individual", "u9", "t0"⟩ (by decide)

/-- C3, counterexample: an empty participant list is *not* rejected.
`!participants || !Array.isArray(participants)` lets `[]` through (an
empty array is truthy in JS), so the call succeeds with 201 and creates a
chat. -/
theorem C3_counterexample :
    (createChatSql ⟨[], [], [], []⟩ "u" none (some []) "individual"
      "c1" "t1").1.status = 201 ∧
    (createChatSql ⟨[], [], [], []⟩ "u" none (some []) "individual"
      "c1" "t1").2.chats ≠ [] := by
  decide

/-- C3, amended: createChat rejects with 400 exactly when the participants
field is missing or not an array; an empty participant list is accepted
and creates a chat with no participant rows (201 in the SQLite revisions,
200 in the JSON revision). -/
theorem C3_participants_validation (s : SqlStore) (chats : List JChat)
    (creator : String) (name : Option String) (ctype nid now : String)
    (hc : ∀ c ∈ s.chats, c.id ≠ nid) :
    createChatSql s creator name none ctype nid now =
      (⟨400, .error "Participants array is required"⟩, s) ∧
    createChatSql s creator name (some []) ctype nid now =
      (⟨201, .ok ⟨nid, name, ctype, creator, now⟩⟩,
       { s with chats := s.chats ++ [⟨nid, name, ctype, creator, now⟩] }) ∧
    createChatJson chats creator name none ctype nid now =
      (⟨400, .error "Participants array is required"⟩, chats) ∧
    createChatJson chats creator name (some []) ctype nid now =
      (⟨200, .ok ⟨nid, name, ctype, [], creator, now⟩⟩,
       chats ++ [⟨nid, name, ctype, [], creator, now⟩]) := by
  have hany : (s.chats.any fun c => c.id == nid) = false := by
    rw [List.any_eq_false]
    intro c hcme
    simpa [beq_iff_eq] using hc c hcme
  have hded : dedupLookup s ctype [] = none := by simp [dedupLookup]
  have hdedJ : dedupLookupJson chats ctype [] = none := by
    simp [dedupLookupJson]
  refine ⟨by simp [createChatSql], ?_, by simp [createChatJson], ?_⟩
  · simp [createChatSql, hded, hany, insertParticipants]
  · simp [createChatJson, hdedJ]

/-- C3, witness: the amended theorem at the empty store. -/
theorem C3_witness :
    createChatSql ⟨[], [], [], []⟩ "u" none (some []) "individual"
        "c1" "t1" =
      (⟨201, .ok ⟨"c1", none, "individual", "u", "t1"⟩⟩,
       { users := [], participants := [], messages := [],
         chats := [⟨"c1", none, "individual", "u", "t1"⟩] }) :=
  (C3_participants_validation ⟨[], [], [], []⟩ [] "u" none "individual"
    "c1" "t1" (by simp)).2.1

/-- C4, counterexample: a duplicate id in `participantIds` does not leave
a deduplicated membership with a successful call.  In the SQLite revisions
the call fails with 500 (PRIMARY KEY violation on the second insert); in
the JSON revision the call succeeds but the duplicate id is stored twice
in the participants array. -/
theorem C4_counterexample :
    (createChatSql ⟨[], [], [], []⟩ "u0" none (some ["u", "u"]) "group"
      "c1" "t1").1.status = 500 ∧
    (createChatJson [] "u0" none (some ["u", "u"]) "group" "c1"
      "t1").1.status = 200 ∧
    (createChatJson [] "u0" none (some ["u", "u"]) "group" "c1" "t1").2 =
      [⟨"c1", none, "group", ["u", "u"], "u0", "t1"⟩] := by
  decide

/-- C4, amended: when a createChat call with a duplicated participant id
reaches the creation step (no dedup hit), the SQLite revisions fail with
500 — the PRIMARY KEY keeps the stored membership of the new chat
duplicate-free, but the call does not succeed; the JSON revision succeeds
and stores the duplicated list verbatim. -/
theorem C4_duplicate_participants_behavior (s : SqlStore)
    (chats : List JChat) (creator : String) (name : Option String)
    (l : List String) (ctype nid now : String)
    (hdup : ¬ l.Nodup)
    (hded : dedupLookup s ctype l = none)
    (hc : ∀ c ∈ s.chats, c.id ≠ nid)
    (hr : ∀ r ∈ s.participants, r.chatId ≠ nid)
    (hdedJ : dedupLookupJson chats ctype l = none) :
    (createChatSql s creator name (some l) ctype nid now).1.status = 500 ∧
    (usersFor (createChatSql s creator name (some l) ctype nid now).2
      nid).Nodup ∧
    (createChatJson chats creator name (some l) ctype nid now).1.status =
      200 ∧
    (createChatJson chats creator name (some l) ctype nid now).1.body =
      .ok ⟨nid, name, ctype, l, creator, now⟩ := by
  rw [createChatSql_fail s creator name l ctype nid now hded hc hdup]
  refine ⟨rfl, ?_, ?_, ?_⟩
  · apply usersFor_insertParticipants
    rw [usersFor_eq_nil
      { s with chats := s.chats ++ [⟨nid, name, ctype, creator, now⟩] }
      nid hr]
    exact List.nodup_nil
  · simp [createChatJson, hdedJ]
  · simp [createChatJson, hdedJ]

/-- C4, witness: the amended theorem at the empty store with participant
list `["u", "u"]`. -/
theorem C4_witness :
    (createChatSql ⟨[], [], [], []⟩ "u0" none (some ["u", "u"]) "group"
      "c1" "t1").1.status = 500 ∧
    (usersFor (createChatSql ⟨[], [], [], []⟩ "u0" none (some ["u", "u"])
      "group" "c1" "t1").2 "c1").Nodup ∧
    (createChatJson [] "u0" none (some ["u", "u"]) "group" "c1"
      "t1").1.status = 200 ∧
    (createChatJson [] "u0" none (some ["u", "u"]) "group" "c1"
      "t1").1.body = .ok ⟨"c1", none, "group", ["u", "u"], "u0", "t1"⟩ :=
  C4_duplicate_participants_behavior ⟨[], [], [], []⟩ [] "u0" none
    ["u", "u"] "group" "c1" "t1" (by decide) (by decide) (by simp)
    (by simp) (by decide)

/-- C9, counterexample: operations are not atomic.  From the empty store,
`createChat(u0, [a, a, b], "group")` in the SQLite revisions fails with
500, yet the final store holds the new chat row and the single row
`(c1, a)` — the prior state is not intact, and the row `(c1, b)` of the
fully-applied state is missing. -/
theorem C9_counterexample :
    createChatSql ⟨[], [], [], []⟩ "u0" none (some ["a", "a", "b"])
        "group" "c1" "t1" =
      (⟨500, .error "Internal server error"⟩,
       ⟨[], [⟨"c1", none, "group", "u0", "t1"⟩], [⟨"c1", "a"⟩], []⟩) ∧
    (⟨[], [⟨"c1", none, "group", "u0", "t1"⟩], [⟨"c1", "a"⟩], []⟩ :
      SqlStore) ≠ ⟨[], [], [], []⟩ ∧
    hasRow ⟨[], [⟨"c1", none, "group", "u0", "t1"⟩], [⟨"c1", "a"⟩], []⟩
      "c1" "b" = false := by
  decide

/-- C9, amended: a createChat call in the SQLite revisions that fails
partway through the participant loop (duplicate id in the list) leaves a
partially-applied state: the call answers 500 but the new chat row stays
written. -/
theorem C9_failed_create_leaves_partial_state (s : SqlStore)
    (creator : String) (name : Option String) (l : List String)
    (ctype nid now : String)
    (hdup : ¬ l.Nodup) (hded : dedupLookup s ctype l = none)
    (hc : ∀ c ∈ s.chats, c.id ≠ nid) :
    (createChatSql s creator name (some l) ctype nid now).1.status = 500 ∧
    (createChatSql s creator name (some l) ctype nid now).2.chats =
      s.chats ++ [⟨nid, name, ctype, creator, now⟩] := by
  rw [createChatSql_fail s creator name l ctype nid now hded hc hdup]
  exact ⟨rfl, by
    simpa using (insertParticipants_fields
      { s with chats := s.chats ++ [⟨nid, name, ctype, creator, now⟩] }
      nid l).2.1⟩

/-- C9, witness: the amended theorem at the empty store with participant
list `["a", "a", "b"]`. -/
theorem C9_witness :
    (createChatSql ⟨[], [], [], []⟩ "u0" none (some ["a", "a", "b"])
      "group" "c1" "t1").1.status = 500 ∧
    (createChatSql ⟨[], [], [], []⟩ "u0" none (some ["a", "a", "b"])
      "group" "c1" "t1").2.chats = [⟨"c1", none, "group", "u0", "t1"⟩] :=
  C9_failed_create_leaves_partial_state ⟨[], [], [], []⟩ "u0" none
    ["a", "a", "b"] "group" "c1" "t1" (by decide) (by decide) (by simp)

/-- C5: confirmed.  For any chat with no prior messages and any sequence
of valid posts (fresh pairwise-distinct ids), listing the chat returns
exactly the messages of the posts addressed to it, in posting order. -/
theorem C5_messages_listed_in_post_order (s : SqlStore) (cid : String)
    (ps : List PostCall)
    (hcid : cid ≠ "")
    (hempty : s.messages.filter (fun m => m.chatId == cid) = [])
    (hvalid : ∀ p ∈ ps, p.chatId ≠ "" ∧ p.content ≠ "")
    (hids : (s.messages.map Message.id ++ ps.map PostCall.id).Nodup) :
    listMessagesSql (applyPosts s ps) cid =
      ⟨200, .ok ((ps.filter fun p => p.chatId == cid).map
        PostCall.toMsg)⟩ := by
  have hcb : (cid == "") = false := by simp [hcid]
  simp only [listMessagesSql, hcb, Bool.false_eq_true, if_false]
  rw [applyPosts_messages ps s hvalid hids, List.filter_append, hempty,
    filter_map_toMsg]
  simp

/-- C5, witness: two posts to chat `"ch"` from the empty store are listed
back in posting order. -/
theorem C5_witness :
    listMessagesSql (applyPosts ⟨[], [], [], []⟩
        [⟨"s1", "ch", "hi", "text", "m1", "t1"⟩,
         ⟨"s1", "ch", "yo", "text", "m2", "t2"⟩]) "ch" =
      ⟨200, .ok [⟨"m1", "ch", "s1", "hi", "text", "sent", "t1"⟩,
                 ⟨"m2", "ch", "s1", "yo", "text", "sent", "t2"⟩]⟩ :=
  C5_messages_listed_in_post_order ⟨[], [], [], []⟩ "ch"
    [⟨"s1", "ch", "hi", "text", "m1", "t1"⟩,
     ⟨"s1", "ch", "yo", "text", "m2", "t2"⟩]
    (by decide) (by decide) (by decide) (by decide)

/-- C6: confirmed.  postMessage answers 400 exactly when `chatId` or
`content` is empty; otherwise it appends a message with status `"sent"`,
the freshly drawn id and the current timestamp, and returns it (both
`src/server.js` revisions). -/
theorem C6_postMessage_contract (s : SqlStore) (ms : List JMessage)
    (sender chatId content mtype nid now : String)
    (hfresh : ∀ m ∈ s.messages, m.id ≠ nid) :
    ((postMessageSql s sender chatId content mtype nid now).1.status =
        400 ↔ chatId = "" ∨ content = "") ∧
    (chatId ≠ "" → content ≠ "" →
      postMessageSql s sender chatId content mtype nid now =
        (⟨201, .ok ⟨nid, chatId, sender, content, mtype, "sent", now⟩⟩,
         { s with messages := s.messages ++
            [⟨nid, chatId, sender, content, mtype, "sent", now⟩] })) ∧
    ((postMessageJson ms sender chatId content mtype nid now).1.status =
        400 ↔ chatId = "" ∨ content = "") ∧
    (chatId ≠ "" → content ≠ "" →
      postMessageJson ms sender chatId content mtype nid now =
        (⟨200, .ok ⟨nid, chatId, sender, content, mtype, "sent", now, []⟩⟩,
         ms ++ [⟨nid, chatId, sender, content, mtype, "sent", now, []⟩])) := by
  have hany : (s.messages.any fun m => m.id == nid) = false := by
    rw [List.any_eq_false]
    intro m hm
    simp only [beq_iff_eq]
    exact hfresh m hm
  refine ⟨?_, ?_, ?_, ?_⟩
  · cases hcond : (chatId == "" || content == "") with
    | true =>
        have hor : chatId = "" ∨ content = "" := by simpa using hcond
        simp [postMessageSql, hcond, hor]
    | false =>
        have hne : chatId ≠ "" ∧ content ≠ "" := by simpa using hcond
        simp [postMessageSql, hcond, hany, hne.1, hne.2]
  · intro hch hco
    have hcond : (chatId == "" || content == "") = false := by
      simp [hch, hco]
    simp [postMessageSql, hcond, hany]
  · cases hcond : (chatId == "" || content == "") with
    | true =>
        have hor : chatId = "" ∨ content = "" := by simpa using hcond
        simp [postMessageJson, hcond, hor]
    | false =>
        have hne : chatId ≠ "" ∧ content ≠ "" := by simpa using hcond
        simp [postMessageJson, hcond, hne.1, hne.2]
  · intro hch hco
    have hcond : (chatId == "" || content == "") = false := by
      simp [hch, hco]
    simp [postMessageJson, hcond]

/-- C6, witness: a valid post from the empty store. -/
theorem C6_witness :
    postMessageSql ⟨[], [], [], []⟩ "s1" "ch" "hi" "text" "m1" "t1" =
      (⟨201, .ok ⟨"m1", "ch", "s1", "hi", "text", "sent", "t1"⟩⟩,
       ⟨[], [], [], [⟨"m1", "ch", "s1", "hi", "text", "sent", "t1"⟩]⟩) :=
  (C6_postMessage_contract ⟨[], [], [], []⟩ [] "s1" "ch" "hi" "text" "m1"
    "t1" (by simp)).2.1 (by decide) (by decide)

/-- C7, counterexample: with an existing username and the empty password,
register fails with the missing-fields validation error, not the conflict
error — so the conflict failure does not hold for *every* supplied
password. -/
theorem C7_counterexample :
    registerSql ⟨[⟨"u1", "alice", "pw", "t0"⟩], [], [], []⟩ "alice" ""
        "u2" "t1" =
      (⟨400, .error "Username and password are required"⟩,
       ⟨[⟨"u1", "alice", "pw", "t0"⟩], [], [], []⟩) ∧
    ("Username and password are required" : String) ≠
      "Username already exists" := by
  decide

/-- C7, amended: for every *non-empty* password, register with an existing
username fails with the conflict error and writes nothing; with a fresh
username it creates the user (password stored verbatim) and returns the
record without the password field. -/
theorem C7_register_conflict_and_success (s : SqlStore)
    (users : List User) (u p nid t : String) :
    (u ≠ "" → p ≠ "" → (∃ x ∈ s.users, x.username = u) →
      registerSql s u p nid t =
        (⟨400, .error "Username already exists"⟩, s)) ∧
    (u ≠ "" → p ≠ "" → (∀ x ∈ s.users, x.username ≠ u) →
      (∀ x ∈ s.users, x.id ≠ nid) →
      registerSql s u p nid t =
        (⟨201, .ok ⟨nid, u, t⟩⟩,
         { s with users := s.users ++ [⟨nid, u, p, t⟩] })) ∧
    (u ≠ "" → p ≠ "" → (∃ x ∈ users, x.username = u) →
      registerJson users u p nid t =
        (⟨400, .error "Username already exists"⟩, users)) ∧
    (u ≠ "" → p ≠ "" → (∀ x ∈ users, x.username ≠ u) →
      registerJson users u p nid t =
        (⟨200, .ok ⟨nid, u, t⟩⟩, users ++ [⟨nid, u, p, t⟩])) := by
  refine ⟨?_, ?_, ?_, ?_⟩
  · rintro hu hp ⟨x, hx, hxu⟩
    have hcond : (u == "" || p == "") = false := by simp [hu, hp]
    have hexany : (s.users.any fun y => y.username == u) = true :=
      List.any_eq_true.mpr ⟨x, hx, by simp [hxu]⟩
    simp [registerSql, hcond, hexany]
  · intro hu hp hnameu hid
    have hcond : (u == "" || p == "") = false := by simp [hu, hp]
    have h1 : (s.users.any fun y => y.username == u) = false := by
      rw [List.any_eq_false]
      intro y hy
      simp only [beq_iff_eq]
      exact hnameu y hy
    have h2 : (s.users.any fun y => y.id == nid) = false := by
      rw [List.any_eq_false]
      intro y hy
      simp only [beq_iff_eq]
      exact hid y hy
    simp [registerSql, hcond, h1, h2]
  · rintro hu hp ⟨x, hx, hxu⟩
    have hcond : (u == "" || p == "") = false := by simp [hu, hp]
    have hexany : (users.any fun y => y.username == u) = true :=
      List.any_eq_true.mpr ⟨x, hx, by simp [hxu]⟩
    simp [registerJson, hcond, hexany]
  · intro hu hp hnameu
    have hcond : (u == "" || p == "") = false := by simp [hu, hp]
    have h1 : (users.any fun y => y.username == u) = false := by
      rw [List.any_eq_false]
      intro y hy
      simp only [beq_iff_eq]
      exact hnameu y hy
    simp [registerJson, hcond, h1]

/-- C7, witness: a conflicting register with a non-empty password answers
the conflict error and leaves the store unchanged. -/
theorem C7_witness :
    registerSql ⟨[⟨"u1", "alice", "pw", "t0"⟩], [], [], []⟩ "alice" "pw2"
        "u2" "t1" =
      (⟨400, .error "Username already exists"⟩,
       ⟨[⟨"u1", "alice", "pw", "t0"⟩], [], [], []⟩) :=
  (C7_register_conflict_and_success
      ⟨[⟨"u1", "alice", "pw", "t0"⟩], [], [], []⟩ [] "alice" "pw2" "u2"
      "t1").1 (by decide) (by decide)
    ⟨⟨"u1", "alice", "pw", "t0"⟩, by simp, rfl⟩

/-- C8: confirmed.  A successful register (valid fields, fresh username
and id) followed by login with the same credentials succeeds, and the
issued token payload carries the userId that register created. -/
theorem C8_register_then_login (s : SqlStore) (u p nid t : String)
    (hu : u ≠ "") (hp : p ≠ "")
    (hfreshU : ∀ x ∈ s.users, x.username ≠ u)
    (hfreshI : ∀ x ∈ s.users, x.id ≠ nid) :
    (registerSql s u p nid t).1 = ⟨201, .ok ⟨nid, u, t⟩⟩ ∧
    loginSql (registerSql s u p nid t).2 u p = ⟨200, .ok ⟨nid, u⟩⟩ := by
  have hcond : (u == "" || p == "") = false := by simp [hu, hp]
  have h1 : (s.users.any fun y => y.username == u) = false := by
    rw [List.any_eq_false]
    intro y hy
    simp only [beq_iff_eq]
    exact hfreshU y hy
  have h2 : (s.users.any fun y => y.id == nid) = false := by
    rw [List.any_eq_false]
    intro y hy
    simp only [beq_iff_eq]
    exact hfreshI y hy
  have hreg : registerSql s u p nid t =
      (⟨201, .ok ⟨nid, u, t⟩⟩,
       { s with users := s.users ++ [⟨nid, u, p, t⟩] }) := by
    simp [registerSql, hcond, h1, h2]
  rw [hreg]
  refine ⟨rfl, ?_⟩
  have hnone : s.users.find?
      (fun x => x.username == u && x.password == p) = none := by
    rw [List.find?_eq_none]
    intro x hx
    simp only [Bool.and_eq_true, beq_iff_eq, not_and]
    intro hxu _
    exact hfreshU x hx hxu
  have hfind : ((s.users ++ [⟨nid, u, p, t⟩] : List User).find?
      fun x => x.username == u && x.password == p) =
      some ⟨nid, u, p, t⟩ := by
    rw [List.find?_append, hnone]
    simp [List.find?_cons]
  simp [loginSql, hcond, hfind]

/-- C8, witness: register then login for `alice` from the empty store. -/
theorem C8_witness :
    (registerSql ⟨[], [], [], []⟩ "alice" "pw1" "u1" "t1").1 =
      ⟨201, .ok ⟨"u1", "alice", "t1"⟩⟩ ∧
    loginSql (registerSql ⟨[], [], [], []⟩ "alice" "pw1" "u1" "t1").2
        "alice" "pw1" = ⟨200, .ok ⟨"u1", "alice"⟩⟩ :=
  C8_register_then_login ⟨[], [], [], []⟩ "alice" "pw1" "u1" "t1"
    (by decide) (by decide) (by simp) (by simp)

/-- C10: confirmed.  Neither postMessage nor listMessages checks that the
chat exists: for a non-empty chatId naming no chat in the store, a valid
post answers 201 with the new message, and a subsequent list for that
chatId answers 200 with the posted message appended — never NotFound. -/
theorem C10_no_chat_existence_check (s : SqlStore)
    (sender chatId content mtype nid now : String)
    (hch : chatId ≠ "") (hco : content ≠ "")
    (hnochat : ∀ c ∈ s.chats, c.id ≠ chatId)
    (hfresh : ∀ m ∈ s.messages, m.id ≠ nid) :
    (postMessageSql s sender chatId content mtype nid now).1 =
      ⟨201, .ok ⟨nid, chatId, sender, content, mtype, "sent", now⟩⟩ ∧
    listMessagesSql
        (postMessageSql s sender chatId content mtype nid now).2 chatId =
      ⟨200, .ok ((s.messages.filter fun m => m.chatId == chatId) ++
        [⟨nid, chatId, sender, content, mtype, "sent", now⟩])⟩ := by
  have hcond : (chatId == "" || content == "") = false := by
    simp [hch, hco]
  have hany : (s.messages.any fun m => m.id == nid) = false := by
    rw [List.any_eq_false]
    intro m hm
    simp only [beq_iff_eq]
    exact hfresh m hm
  have hpost : postMessageSql s sender chatId content mtype nid now =
      (⟨201, .ok ⟨nid, chatId, sender, content, mtype, "sent", now⟩⟩,
       { s with messages := s.messages ++
          [⟨nid, chatId, sender, content, mtype, "sent", now⟩] }) := by
    simp [postMessageSql, hcond, hany]
  rw [hpost]
  have hcb : (chatId == "") = false := by simp [hch]
  refine ⟨rfl, ?_⟩
  simp [listMessagesSql, hcb, List.filter_append]

/-- C10, witness: posting to the chat id `"ghost"`, which names no chat in
the empty store, succeeds and the message is listed back. -/
theorem C10_witness :
    (postMessageSql ⟨[], [], [], []⟩ "s1" "ghost" "hi" "text" "m1"
      "t1").1 =
      ⟨201, .ok ⟨"m1", "ghost", "s1", "hi", "text", "sent", "t1"⟩⟩ ∧
    listMessagesSql (postMessageSql ⟨[], [], [], []⟩ "s1" "ghost" "hi"
        "text" "m1" "t1").2 "ghost" =
      ⟨200, .ok [⟨"m1", "ghost", "s1", "hi", "text", "sent", "t1"⟩]⟩ :=
  C10_no_chat_existence_check ⟨[], [], [], []⟩ "s1" "ghost" "hi" "text"
    "m1" "t1" (by decide) (by decide) (by simp) (by simp)

end ChatApi
